import Mathlib

/-!
Shallow embedding of the RBAC authorization core of the
Users-Permissions backend: the data model (`Permission`, `Role`, `User`,
`AuditRecord`), the authorization engine (`User.hasPermission`), the
middleware (`authenticate`, `authorize`, `requireRoles`,
`authorizeResourceOwnership`), the token helpers
(`generateAccessToken` with abstract JWT sign/verify), audit-record
creation (`createLog`), and the user/role mutation route handlers.
All definitions are translated from the TypeScript source.
-/

namespace RBAC

/-- Embeds the `Permission` document (src/models/Permission.ts): a
(resource, action) grant with a human-readable name. -/
structure Permission where
  name : String
  resource : String
  action : String
  deriving Repr, DecidableEq

/-- Embeds the `Role` document (src/models/Role.ts) in populated form:
its `permissions` ObjectId references are resolved to the permission
documents, as the pre-find populate hook does. -/
structure Role where
  id : Nat
  name : String
  permissions : List Permission
  isActive : Bool
  deriving Repr, DecidableEq

/-- Embeds the `User` document (src/models/User.ts) in populated form:
`roles` references resolved to role documents (with their permissions
resolved), plus the fields the authorization/token core reads. -/
structure User where
  id : Nat
  email : String
  roles : List Role
  isActive : Bool
  refreshTokens : List String
  deriving Repr, DecidableEq

/-- The permission test inside `userSchema.methods.hasPermission`
(src/models/User.ts lines 293-296): the permission applies to the
requested resource and its action is the requested one or the
`manage` wildcard. -/
def permissionMatches (resource action : String) (p : Permission) : Bool :=
  p.resource == resource && (p.action == action || p.action == "manage")

/-- The `for (const role of this.roles)` loop of
`userSchema.methods.hasPermission` (src/models/User.ts lines 288-299):
skip inactive roles (`continue`), return true at the first role whose
permission list has a match, otherwise fall through to the next role. -/
def hasPermissionLoop (resource action : String) : List Role → Bool
  | [] => false
  | role :: rest =>
    if !role.isActive then hasPermissionLoop resource action rest
    else if role.permissions.any (permissionMatches resource action) then true
    else hasPermissionLoop resource action rest

/-- Embeds `userSchema.methods.hasPermission` (src/models/User.ts
lines 283-302): empty role list short-circuits to false, then the role
loop. Note the source performs NO check of `this.isActive`. -/
def User.hasPermission (u : User) (resource action : String) : Bool :=
  if u.roles.length == 0 then false
  else hasPermissionLoop resource action u.roles

/-! ### Token service (abstract JWT) -/

/-- The payload `generateAccessToken` signs (src/models/User.ts lines
227-231): `{ id, email, roles }`. -/
structure AccessPayload where
  id : Nat
  email : String
  roles : List Nat
  deriving Repr, DecidableEq

/-- Abstract signed token: payload, signing secret, issue time and
expiry instant. Models the `jsonwebtoken` wire format at the claims
level (the encoding itself is not load-bearing). -/
structure SignedToken (α : Type) where
  payload : α
  secret : String
  issuedAt : Nat
  expiresAt : Nat
  deriving Repr, DecidableEq

/-- Abstract `jwt.sign(payload, secret, { expiresIn })`: stamps the
payload with the secret and the expiry `now + lifetime` (seconds). -/
def jwtSign {α : Type} (payload : α) (secret : String) (now lifetime : Nat) : SignedToken α :=
  { payload := payload, secret := secret, issuedAt := now, expiresAt := now + lifetime }

/-- The two `jsonwebtoken` verification failures `authenticate`
distinguishes: `TokenExpiredError` and `JsonWebTokenError`. -/
inductive JwtError where
  | expired
  | invalid
  deriving Repr, DecidableEq

/-- Abstract `jwt.verify(token, secret)`: fails with `invalid` on a
secret mismatch, with `expired` once the expiry instant is reached
(`exp` is an exclusive validity bound), else yields the payload. -/
def jwtVerify {α : Type} (t : SignedToken α) (secret : String) (now : Nat) : Except JwtError α :=
  if t.secret ≠ secret then .error .invalid
  else if t.expiresAt ≤ now then .error .expired
  else .ok t.payload

/-- Token secrets from the environment (`JWT_ACCESS_SECRET`,
`JWT_REFRESH_SECRET`). -/
structure Config where
  accessSecret : String
  refreshSecret : String
  deriving Repr, DecidableEq

/-- `expiresIn: '15m'` of `generateAccessToken`, in seconds. -/
def accessTokenLifetime : Nat := 15 * 60

/-- Embeds `userSchema.methods.generateAccessToken` (src/models/User.ts
lines 225-238): sign `{ id, email, roles }` with the access secret,
expiring in 15 minutes. -/
def User.generateAccessToken (u : User) (cfg : Config) (now : Nat) : SignedToken AccessPayload :=
  jwtSign { id := u.id, email := u.email, roles := u.roles.map Role.id }
    cfg.accessSecret now accessTokenLifetime

/-! ### Middleware (src/middleware/auth.ts) -/

/-- `User.findById` against an in-memory user store. -/
def findById (db : List User) (id : Nat) : Option User :=
  db.find? (fun u => u.id == id)

/-- Outcome of the `authenticate` middleware: attach the resolved user
and continue, reject with 401, or 500 on an unexpected error (the
latter is unreachable in this total model). -/
inductive AuthOutcome where
  | ok (u : User)
  | unauthorized (message : String)
  deriving Repr, DecidableEq

/-- Embeds the `authenticate` middleware (src/middleware/auth.ts lines
24-62): require a bearer token, verify it with the access secret
(expired / invalid map to distinct 401 messages), load the user by the
decoded `id`, and reject a missing or inactive user. -/
def authenticate (cfg : Config) (db : List User)
    (bearer : Option (SignedToken AccessPayload)) (now : Nat) : AuthOutcome :=
  match bearer with
  | none => .unauthorized "Access token required"
  | some token =>
    match jwtVerify token cfg.accessSecret now with
    | .error .expired => .unauthorized "Token expired"
    | .error .invalid => .unauthorized "Invalid token"
    | .ok decoded =>
      match findById db decoded.id with
      | none => .unauthorized "User not found or inactive"
      | some user =>
        if !user.isActive then .unauthorized "User not found or inactive"
        else .ok user

/-- The audit-log document fields `AuditLog.createLog` receives
(src/models/AuditLog.ts): action kind, resource, resource id, acting
user id/email, and string-valued metadata pairs. -/
structure AuditRecord where
  action : String
  resource : String
  resourceId : String
  userId : Nat
  userEmail : String
  metadata : List (String × String)
  ipAddress : String
  userAgent : String
  deriving Repr, DecidableEq

/-- Response of the `authorize` middleware: continue, 401 without an
authenticated user, or 403 naming the required (resource, action). -/
inductive AuthorizeOutcome where
  | next
  | authRequired
  | insufficient (resource action : String)
  deriving Repr, DecidableEq

/-- Result of `authorize`: the HTTP-level outcome plus the audit
records the middleware attempted to emit. -/
structure AuthorizeResult where
  outcome : AuthorizeOutcome
  audits : List AuditRecord
  deriving Repr, DecidableEq

/-- Embeds the `authorize` middleware (src/middleware/auth.ts lines
65-106): 401 without a user; on `hasPermission` false, emit an
`unauthorized_access` audit record (action `read`, requested pair in
metadata) and answer 403 with the required pair; else continue. -/
def authorize (resource action : String) (user : Option User)
    (path method ip userAgent : String) : AuthorizeResult :=
  match user with
  | none => { outcome := .authRequired, audits := [] }
  | some u =>
    if u.hasPermission resource action then { outcome := .next, audits := [] }
    else
      { outcome := .insufficient resource action,
        audits := [{ action := "read", resource := "unauthorized_access",
                     resourceId := path, userId := u.id, userEmail := u.email,
                     metadata := [("requiredResource", resource),
                                  ("requiredAction", action),
                                  ("path", path), ("method", method)],
                     ipAddress := ip, userAgent := userAgent }] }

/-- Outcome of the role-name and ownership middleware: continue, 401,
or 403. -/
inductive GuardOutcome where
  | next
  | authRequired
  | forbidden
  deriving Repr, DecidableEq

/-- Embeds the `requireRoles` middleware (src/middleware/auth.ts lines
109-137): map the user's roles to their names and pass iff some
required name occurs among them. No `isActive` filtering. -/
def requireRoles (roles : List String) (user : Option User) : GuardOutcome :=
  match user with
  | none => .authRequired
  | some u =>
    let userRoleNames := u.roles.map Role.name
    if roles.any (fun r => userRoleNames.contains r) then .next
    else .forbidden

/-- JavaScript `a || b` over the two route parameters (an empty string
is falsy). -/
def jsOr (a b : Option String) : Option String :=
  match a with
  | some s => if s = "" then b else some s
  | none => b

/-- Embeds the `authorizeResourceOwnership` middleware
(src/middleware/auth.ts lines 140-172): take `req.params.id ||
req.params.userId`; pass when it equals the user's own id; otherwise
pass iff the user has the `manage` permission on the resource. -/
def authorizeResourceOwnership (resource : String) (user : Option User)
    (paramsId paramsUserId : Option String) : GuardOutcome :=
  match user with
  | none => .authRequired
  | some u =>
    let resourceId := jsOr paramsId paramsUserId
    if resourceId = some (toString u.id) then .next
    else if u.hasPermission resource "manage" then .next
    else .forbidden

/-! ### Audit-record creation (src/models/AuditLog.ts) -/

/-- The `new this(data); await auditLog.save()` part of `createLog`:
persisting may fail, modelled by the storage outcome parameter. -/
def saveAudit (data : AuditRecord) (storage : Except String Unit) : Except String AuditRecord :=
  match storage with
  | .ok _ => .ok data
  | .error e => .error e

/-- Embeds `auditLogSchema.statics.createLog` (src/models/AuditLog.ts
lines 135-145): try to save; on failure catch, log operationally and
return null rather than throwing. -/
def createLog (data : AuditRecord) (storage : Except String Unit) : Option AuditRecord :=
  match saveAudit data storage with
  | .ok r => some r
  | .error _ => none

/-- A protected operation that emits an audit record as a side effect:
its own result together with what `createLog` returned. -/
def opWithAudit {α : Type} (ownResult : α) (data : AuditRecord)
    (storage : Except String Unit) : α × Option AuditRecord :=
  (ownResult, createLog data storage)

/-! ### User mutation routes (src/routes/users.ts) -/

/-- The fields `updateUserSchema` admits on `PUT /api/users/:id`
(src/validation/schemas.ts): optional email, names, role ids and
`isActive`. Roles are carried as resolved role documents, standing for
the ids the route receives. -/
structure UserUpdate where
  email : Option String
  firstName : Option String
  lastName : Option String
  roles : Option (List Role)
  isActive : Option Bool
  deriving Repr, DecidableEq

/-- Outcome of `PUT /api/users/:id`. -/
inductive UpdateUserResult where
  | notFound
  | emailConflict
  | invalidRoles
  | ok (u : User)
  deriving Repr, DecidableEq

/-- Embeds `router.put('/:id')` of the users router: load the user,
reject a duplicate email, reject role ids that are not existing active
roles, then `Object.assign(user, value)` and save. `refreshTokens` is
not touched. -/
def updateUser (users : List User) (roleDb : List Role) (targetId : Nat)
    (v : UserUpdate) : UpdateUserResult :=
  match findById users targetId with
  | none => .notFound
  | some user =>
    if (match v.email with
        | some e => e ≠ user.email && users.any (fun x => x.email == e && x.id != targetId)
        | none => false) then .emailConflict
    else if (match v.roles with
        | some rs => !(rs.all (fun r => r.isActive && roleDb.contains r))
        | none => false) then .invalidRoles
    else .ok { user with
                 email := v.email.getD user.email,
                 roles := (v.roles).getD user.roles,
                 isActive := v.isActive.getD user.isActive }

/-- Outcome of `DELETE /api/users/:id`. -/
inductive DeleteUserResult where
  | notFound
  | selfDelete
  | ok (u : User)
  deriving Repr, DecidableEq

/-- Embeds `router.delete('/:id')` of the users router: load the user,
forbid self-deletion, then soft delete — `isActive = false` and
`refreshTokens = []` ("Clear all sessions"). -/
def deleteUser (users : List User) (requesterId targetId : Nat) : DeleteUserResult :=
  match findById users targetId with
  | none => .notFound
  | some user =>
    if user.id == requesterId then .selfDelete
    else .ok { user with isActive := false, refreshTokens := [] }

/-! ### Role deletion route (src/routes/roles.ts) -/

/-- `User.countDocuments({ roles: roleId, isActive: true })` of the
role-delete handler: active users referencing the role. -/
def countActiveUsersWithRole (users : List User) (roleId : Nat) : Nat :=
  (users.filter (fun u => u.isActive && u.roles.any (fun r => r.id == roleId))).length

/-- Outcome of `DELETE /api/roles/:id`. -/
inductive DeleteRoleResult where
  | notFound
  | inUse (userCount : Nat)
  | ok (r : Role)
  deriving Repr, DecidableEq

/-- The successful soft delete applied to the role store: the
referenced role is deactivated in place, every record kept. -/
def deactivateRole (roles : List Role) (roleId : Nat) : List Role :=
  roles.map (fun r => if r.id == roleId then { r with isActive := false } else r)

/-- Embeds `router.delete('/:id')` of src/routes/roles.ts (lines
431-485): 404 when the role is missing, 400 when any active user still
references it (store unchanged), else soft delete — `isActive = false`
and save, the record itself kept. Returns the outcome and the
resulting role store. -/
def deleteRole (users : List User) (roles : List Role) (roleId : Nat) :
    DeleteRoleResult × List Role :=
  match roles.find? (fun r => r.id == roleId) with
  | none => (.notFound, roles)
  | some role =>
    let userCount := countActiveUsersWithRole users roleId
    if userCount > 0 then (.inUse userCount, roles)
    else (.ok { role with isActive := false }, deactivateRole roles roleId)

/-! ### Composite request pipeline and helpers for the statements -/

/-- The request-level allow decision of a route guarded by
`authenticate` followed by `authorize(resource, action)`: the request
is allowed iff authentication attaches a user and the `authorize`
middleware calls `next()`. -/
def requestDecision (cfg : Config) (db : List User)
    (bearer : Option (SignedToken AccessPayload)) (now : Nat)
    (resource action path method ip userAgent : String) : Bool :=
  match authenticate cfg db bearer now with
  | .ok u => (authorize resource action (some u) path method ip userAgent).outcome == .next
  | .unauthorized _ => false

/-- Rewrite every role's `isActive` flag of a user by an arbitrary
assignment, leaving all other data unchanged. Used to state that a
check does not consult the flags. -/
def setRolesActive (u : User) (f : Role → Bool) : User :=
  { u with roles := u.roles.map (fun r => { r with isActive := f r }) }

/-! ### Concrete inputs used by counterexamples and witnesses -/

/-- A permission granting `read` on `user`. -/
def readUsersPermission : Permission :=
  { name := "Read Users", resource := "user", action := "read" }

/-- A permission granting the `manage` wildcard on `user`. -/
def manageUsersPermission : Permission :=
  { name := "Manage Users", resource := "user", action := "manage" }

/-- An active role holding the `read`-on-`user` permission. -/
def readerRole : Role :=
  { id := 1, name := "Reader", permissions := [readUsersPermission], isActive := true }

/-- An active role holding the `manage`-on-`user` permission. -/
def adminRole : Role :=
  { id := 2, name := "Admin", permissions := [manageUsersPermission], isActive := true }

/-- A DEACTIVATED principal that still holds the active reader role. -/
def inactiveUser : User :=
  { id := 1, email := "inactive@test.com", roles := [readerRole],
    isActive := false, refreshTokens := [] }

/-- An active principal holding the admin role. -/
def adminUser : User :=
  { id := 2, email := "admin@test.com", roles := [adminRole],
    isActive := true, refreshTokens := [] }

/-- An active principal with no roles and one outstanding refresh
token. -/
def tokenHolder : User :=
  { id := 3, email := "holder@test.com", roles := [],
    isActive := true, refreshTokens := ["refresh-token-1"] }

/-- The `PUT /api/users/:id` body `{ isActive: false }`. -/
def deactivateUpdate : UserUpdate :=
  { email := none, firstName := none, lastName := none, roles := none,
    isActive := some false }

/-- A fixed secret configuration. -/
def testConfig : Config :=
  { accessSecret := "access-secret", refreshSecret := "refresh-secret" }

/-- A sample audit record. -/
def sampleAudit : AuditRecord :=
  { action := "update", resource := "user", resourceId := "3",
    userId := 2, userEmail := "admin@test.com", metadata := [],
    ipAddress := "127.0.0.1", userAgent := "jest" }

/-! ## Theorems -/

/-- Unrolling the role loop one step: the head role contributes iff it
is active and some of its permissions matches; otherwise the loop
continues on the tail. -/
theorem hasPermissionLoop_cons (resource action : String) (role : Role) (rest : List Role) :
    hasPermissionLoop resource action (role :: rest) =
      ((role.isActive && role.permissions.any (permissionMatches resource action)) ||
        hasPermissionLoop resource action rest) := by
  by_cases h1 : role.isActive <;>
    by_cases h2 : role.permissions.any (permissionMatches resource action) <;>
      simp [hasPermissionLoop, h1, h2]

/-- Existence characterization of the role loop, by induction over the
role list: some active role holds a matching permission. -/
theorem hasPermissionLoop_eq_true_iff (resource action : String) (rs : List Role) :
    hasPermissionLoop resource action rs = true ↔
      ∃ r ∈ rs, r.isActive = true ∧
        r.permissions.any (permissionMatches resource action) = true := by
  induction rs with
  | nil => simp [hasPermissionLoop]
  | cons role rest ih =>
    rw [hasPermissionLoop_cons, Bool.or_eq_true, Bool.and_eq_true, ih]
    constructor
    · rintro (⟨h1, h2⟩ | ⟨r, hr, h1, h2⟩)
      · exact ⟨role, List.mem_cons_self _ _, h1, h2⟩
      · exact ⟨r, List.mem_cons_of_mem _ hr, h1, h2⟩
    · rintro ⟨r, hr, h1, h2⟩
      rcases List.mem_cons.mp hr with rfl | hr
      · exact Or.inl ⟨h1, h2⟩
      · exact Or.inr ⟨r, hr, h1, h2⟩

/-- The empty-roles guard of `hasPermission` is redundant: the method
equals the role loop on the full role list. -/
theorem hasPermission_eq_loop (u : User) (resource action : String) :
    u.hasPermission resource action = hasPermissionLoop resource action u.roles := by
  unfold User.hasPermission
  cases u.roles with
  | nil => simp [hasPermissionLoop]
  | cons a l => simp

/-- `hasPermission` as a pure existence check over all roles. -/
theorem hasPermission_eq_true_iff (u : User) (resource action : String) :
    u.hasPermission resource action = true ↔
      ∃ r ∈ u.roles, r.isActive = true ∧
        ∃ p ∈ r.permissions, permissionMatches resource action p = true := by
  rw [hasPermission_eq_loop, hasPermissionLoop_eq_true_iff]
  constructor
  · rintro ⟨r, hr, h1, h2⟩
    exact ⟨r, hr, h1, by simpa [List.any_eq_true] using h2⟩
  · rintro ⟨r, hr, h1, p, hp, h2⟩
    exact ⟨r, hr, h1, List.any_eq_true.mpr ⟨p, hp, h2⟩⟩

/-- C2: a role with `active=false` never contributes to
`hasPermission`: the decision is unchanged when all inactive roles are
removed from the principal, and the search visits all active roles —
the result is true iff SOME active role (not merely the first role)
holds a matching permission. -/
theorem c2_inactive_roles_never_contribute (u : User) (resource action : String) :
    u.hasPermission resource action =
      User.hasPermission { u with roles := u.roles.filter (fun r => r.isActive) }
        resource action ∧
    (u.hasPermission resource action = true ↔
      ∃ r ∈ u.roles, r.isActive = true ∧
        ∃ p ∈ r.permissions, permissionMatches resource action p = true) := by
  refine ⟨?_, hasPermission_eq_true_iff u resource action⟩
  rw [Bool.eq_iff_iff, hasPermission_eq_true_iff, hasPermission_eq_true_iff]
  constructor
  · rintro ⟨r, hr, h1, h2⟩
    exact ⟨r, by simpa [List.mem_filter] using ⟨hr, h1⟩, h1, h2⟩
  · rintro ⟨r, hr, h1, h2⟩
    exact ⟨r, (List.mem_filter.mp hr).1, h1, h2⟩

/-- C3: a permission with the `manage` action on resource X inside an
active role of an active principal authorizes every action on X. -/
theorem c3_manage_wildcard_authorizes_every_action
    (u : User) (X : String) (r : Role) (p : Permission)
    (hu : u.isActive = true) (hr : r ∈ u.roles) (hra : r.isActive = true)
    (hp : p ∈ r.permissions) (hres : p.resource = X) (hact : p.action = "manage")
    (a : String) : u.hasPermission X a = true := by
  rw [hasPermission_eq_true_iff]
  refine ⟨r, hr, hra, p, hp, ?_⟩
  simp [permissionMatches, hres, hact]

/-- Witness for C3: the admin user's `manage`-on-`user` grant
authorizes each of the four canonical actions on `user`. -/
theorem c3_witness :
    adminUser.hasPermission "user" "create" = true ∧
    adminUser.hasPermission "user" "read" = true ∧
    adminUser.hasPermission "user" "update" = true ∧
    adminUser.hasPermission "user" "delete" = true := by
  have base := c3_manage_wildcard_authorizes_every_action adminUser "user"
    adminRole manageUsersPermission rfl (by simp [adminUser]) rfl
    (by simp [adminRole]) rfl rfl
  exact ⟨base "create", base "read", base "update", base "delete"⟩

/-- `jwtVerify` only succeeds with the token's own payload. -/
theorem jwtVerify_ok {α : Type} (t : SignedToken α) (secret : String) (now : Nat)
    (a : α) (h : jwtVerify t secret now = .ok a) : a = t.payload := by
  unfold jwtVerify at h
  by_cases h1 : t.secret ≠ secret
  · simp [h1] at h
  · by_cases h2 : t.expiresAt ≤ now
    · simp [h1, h2] at h
    · simp [h1, h2] at h
      exact h.symm

/-- C1 counterexample: `User.hasPermission` itself performs no check of
the principal's `isActive` flag — on a deactivated principal that
still holds an active role with a matching permission it returns true,
so the claim as stated (hasPermission returns false for every inactive
principal) is false. -/
theorem c1_counterexample :
    inactiveUser.isActive = false ∧
    inactiveUser.hasPermission "user" "read" = true := by
  constructor
  · rfl
  · rfl

/-- C1 (amended): for every principal with `active=false`, the
request-level authorization decision (`authenticate` followed by
`authorize`, i.e. `requestDecision`) is deny for every resource and
action: `authenticate` rejects the inactive principal with 401 before
`hasPermission` is consulted. -/
theorem c1_inactive_principal_always_denied
    (cfg : Config) (db : List User) (tok : SignedToken AccessPayload) (now : Nat)
    (resource action path method ip userAgent : String) (u : User)
    (hdb : findById db tok.payload.id = some u) (hinactive : u.isActive = false) :
    requestDecision cfg db (some tok) now resource action path method ip userAgent = false := by
  unfold requestDecision authenticate
  cases hv : jwtVerify tok cfg.accessSecret now with
  | error e => cases e <;> simp [hv]
  | ok decoded =>
    have hpd : decoded = tok.payload := jwtVerify_ok tok cfg.accessSecret now decoded hv
    subst hpd
    simp [hv, hdb, hinactive]

/-- Witness for the amended C1: a freshly issued token for the
deactivated user is denied by the pipeline. -/
theorem c1_witness :
    requestDecision testConfig [inactiveUser]
      (some (inactiveUser.generateAccessToken testConfig 0)) 0
      "user" "read" "/api/users" "GET" "127.0.0.1" "jest" = false :=
  c1_inactive_principal_always_denied testConfig [inactiveUser]
    (inactiveUser.generateAccessToken testConfig 0) 0
    "user" "read" "/api/users" "GET" "127.0.0.1" "jest" inactiveUser rfl rfl

/-- C4: `requireRoles` passes iff some required name is string-equal to
the name of some role in the principal's role list, and the decision is
invariant under ANY reassignment of the roles' `isActive` flags — a
deactivated role still satisfies the check. -/
theorem c4_requireRoles_ignores_role_active_flag (names : List String) (u : User) :
    (requireRoles names (some u) = .next ↔
      ∃ n ∈ names, ∃ r ∈ u.roles, r.name = n) ∧
    ∀ f : Role → Bool,
      requireRoles names (some (setRolesActive u f)) = requireRoles names (some u) := by
  constructor
  · unfold requireRoles
    by_cases h : names.any (fun r => (u.roles.map Role.name).contains r)
    · simp only [h, if_true, true_iff]
      rw [List.any_eq_true] at h
      obtain ⟨n, hn, hc⟩ := h
      rw [List.elem_iff] at hc
      obtain ⟨r, hr, hrn⟩ := List.mem_map.mp hc
      exact ⟨n, hn, r, hr, hrn⟩
    · simp only [h, if_false]
      constructor
      · intro hfalse
        cases hfalse
      · rintro ⟨n, hn, r, hr, hrn⟩
        exact absurd (List.any_eq_true.mpr
          ⟨n, hn, List.elem_iff.mpr (List.mem_map.mpr ⟨r, hr, hrn⟩)⟩) h
  · intro f
    unfold requireRoles setRolesActive
    simp [List.map_map, Function.comp]

/-- C5 counterexample: the `PUT /api/users/:id` handler accepts
`{ isActive: false }` and applies it with `Object.assign` without
touching `refreshTokens` — deactivating `tokenHolder` through the
update route leaves its outstanding refresh token in place, so not
every operation that clears the active flag clears the token set. -/
theorem c5_counterexample :
    updateUser [tokenHolder] [] 3 deactivateUpdate =
      .ok { tokenHolder with isActive := false } ∧
    ({ tokenHolder with isActive := false } : User).isActive = false ∧
    ({ tokenHolder with isActive := false } : User).refreshTokens = ["refresh-token-1"] := by
  refine ⟨?_, rfl, rfl⟩
  rfl

/-- C5 (amended): the user-delete route is the operation that pairs
deactivation with revocation — whenever `DELETE /api/users/:id`
succeeds, the resulting principal has `isActive = false` AND an empty
`refreshTokens` set. (The update route can set `isActive = false`
without clearing the set.) -/
theorem c5_delete_clears_refresh_tokens
    (users : List User) (requesterId targetId : Nat) (u : User)
    (h : deleteUser users requesterId targetId = .ok u) :
    u.isActive = false ∧ u.refreshTokens = [] := by
  unfold deleteUser at h
  cases hf : findById users targetId with
  | none => rw [hf] at h; cases h
  | some user =>
    rw [hf] at h
    cases hself : user.id == requesterId with
    | true => simp [hself] at h
    | false =>
      simp [hself] at h
      subst h
      exact ⟨rfl, rfl⟩

/-- Witness for the amended C5: deleting `tokenHolder` (as the admin)
deactivates it and clears its refresh tokens. -/
theorem c5_witness :
    ({ tokenHolder with isActive := false, refreshTokens := [] } : User).isActive = false ∧
    ({ tokenHolder with isActive := false, refreshTokens := [] } : User).refreshTokens = [] :=
  c5_delete_clears_refresh_tokens [tokenHolder] 2 3
    { tokenHolder with isActive := false, refreshTokens := [] } rfl

/-- C6: for an existing role, the role-delete route succeeds iff zero
active principals reference it; on success the role is soft-deleted in
place (`isActive = false`, record and ids kept), and on failure the
route answers `inUse` and the role store is returned unchanged. -/
theorem c6_deleteRole_soft_delete
    (users : List User) (roles : List Role) (roleId : Nat) (role : Role)
    (hfind : roles.find? (fun r => r.id == roleId) = some role) :
    ((deleteRole users roles roleId).1 = .ok { role with isActive := false } ↔
      countActiveUsersWithRole users roleId = 0) ∧
    (countActiveUsersWithRole users roleId = 0 →
      (deleteRole users roles roleId).2 = deactivateRole roles roleId ∧
      (deleteRole users roles roleId).2.map Role.id = roles.map Role.id) ∧
    (0 < countActiveUsersWithRole users roleId →
      deleteRole users roles roleId =
        (.inUse (countActiveUsersWithRole users roleId), roles)) := by
  have hids : (deactivateRole roles roleId).map Role.id = roles.map Role.id := by
    unfold deactivateRole
    rw [List.map_map]
    apply List.map_congr_left
    intro r _
    by_cases h : r.id = roleId <;> simp [h]
  unfold deleteRole
  rw [hfind]
  by_cases hc : countActiveUsersWithRole users roleId > 0
  · have hne : countActiveUsersWithRole users roleId ≠ 0 := Nat.pos_iff_ne_zero.mp hc
    refine ⟨?_, fun h0 => absurd h0 hne, fun _ => by simp [hc]⟩
    simp only [hc, if_true]
    constructor
    · intro h; cases h
    · intro h0; exact absurd h0 hne
  · have h0 : countActiveUsersWithRole users roleId = 0 := Nat.eq_zero_of_not_pos hc
    refine ⟨?_, fun _ => by simp [hc, hids], fun hpos => absurd hpos hc⟩
    simp [hc, h0]

/-- Witness for C6: deleting `adminRole` from a store where only the
deactivated `inactiveUser` (which holds a different role) exists
succeeds and deactivates the record in place. -/
theorem c6_witness :
    ((deleteRole [inactiveUser] [adminRole] 2).1 =
        .ok { adminRole with isActive := false } ↔
      countActiveUsersWithRole [inactiveUser] 2 = 0) ∧
    (countActiveUsersWithRole [inactiveUser] 2 = 0 →
      (deleteRole [inactiveUser] [adminRole] 2).2 = deactivateRole [adminRole] 2 ∧
      (deleteRole [inactiveUser] [adminRole] 2).2.map Role.id = [adminRole].map Role.id) ∧
    (0 < countActiveUsersWithRole [inactiveUser] 2 →
      deleteRole [inactiveUser] [adminRole] 2 =
        (.inUse (countActiveUsersWithRole [inactiveUser] 2), [adminRole])) :=
  c6_deleteRole_soft_delete [inactiveUser] [adminRole] 2 adminRole rfl

/-- C7: `createLog` never propagates a persistence failure to its
caller — a failing save yields `null` (none), a successful save yields
the record, and the protected operation's own result is unchanged in
either case. -/
theorem c7_createLog_never_propagates {α : Type}
    (ownResult : α) (data : AuditRecord) (storage : Except String Unit) :
    (∀ e, storage = .error e → createLog data storage = none) ∧
    (storage = .ok () → createLog data storage = some data) ∧
    (opWithAudit ownResult data storage).1 = ownResult := by
  refine ⟨?_, ?_, rfl⟩
  · intro e he
    subst he
    rfl
  · intro hok
    subst hok
    rfl

/-- Witness for C7: with the storage layer down, `createLog` returns
`null` and the protected operation's result stands. -/
theorem c7_witness :
    createLog sampleAudit (.error "storage unavailable") = none ∧
    (opWithAudit 42 sampleAudit (.error "storage unavailable")).1 = 42 :=
  ⟨(c7_createLog_never_propagates 42 sampleAudit (.error "storage unavailable")).1
      "storage unavailable" rfl,
    (c7_createLog_never_propagates 42 sampleAudit (.error "storage unavailable")).2.2⟩

/-- C8: `authorizeResourceOwnership` passes iff the request's target id
(`params.id || params.userId`) equals the principal's own id or the
principal has the `manage` permission on the resource; it denies
otherwise; and in the ownership case it passes whatever the
principal's roles are — no role permission is consulted. -/
theorem c8_ownership_or_manage (resource : String) (u : User) (pid puid : Option String) :
    (authorizeResourceOwnership resource (some u) pid puid = .next ↔
      jsOr pid puid = some (toString u.id) ∨ u.hasPermission resource "manage" = true) ∧
    (authorizeResourceOwnership resource (some u) pid puid = .forbidden ↔
      jsOr pid puid ≠ some (toString u.id) ∧ u.hasPermission resource "manage" = false) ∧
    (∀ rs : List Role, jsOr pid puid = some (toString u.id) →
      authorizeResourceOwnership resource (some { u with roles := rs }) pid puid = .next) := by
  refine ⟨?_, ?_, ?_⟩
  · by_cases h1 : jsOr pid puid = some (toString u.id)
    · simp [authorizeResourceOwnership, h1]
    · by_cases h2 : u.hasPermission resource "manage" <;>
        simp [authorizeResourceOwnership, h1, h2]
  · by_cases h1 : jsOr pid puid = some (toString u.id)
    · simp [authorizeResourceOwnership, h1]
    · by_cases h2 : u.hasPermission resource "manage" <;>
        simp [authorizeResourceOwnership, h1, h2]
  · intro rs h1
    simp [authorizeResourceOwnership, h1]

/-- Witness for C8: a user whose target id is its own id passes the
ownership middleware. -/
theorem c8_witness :
    authorizeResourceOwnership "user" (some tokenHolder) (some "3") none = .next :=
  ((c8_ownership_or_manage "user" tokenHolder (some "3") none).1).mpr (Or.inl rfl)

/-- C9: round-trip — verifying (via `authenticate`) an access token
freshly issued by `generateAccessToken` for an active principal,
before its expiry, resolves exactly that principal: the `id` claim
placed in the token is the id the verifier decodes and looks up. -/
theorem c9_access_token_round_trip (cfg : Config) (db : List User) (u : User)
    (issuedAt verifyAt : Nat)
    (hdb : findById db u.id = some u) (hact : u.isActive = true)
    (hexp : verifyAt < issuedAt + accessTokenLifetime) :
    authenticate cfg db (some (u.generateAccessToken cfg issuedAt)) verifyAt = .ok u := by
  have hle : ¬(issuedAt + accessTokenLifetime ≤ verifyAt) := Nat.not_le.mpr hexp
  simp [authenticate, User.generateAccessToken, jwtSign, jwtVerify, hle, hdb, hact]

/-- Witness for C9: the admin user's fresh token authenticates back to
the admin user ten seconds after issuance. -/
theorem c9_witness :
    authenticate testConfig [adminUser]
      (some (adminUser.generateAccessToken testConfig 0)) 10 = .ok adminUser :=
  c9_access_token_round_trip testConfig [adminUser] adminUser 0 10 rfl rfl (by decide)

/-- C10: when `authorize` denies an authenticated principal, the audit
record it attempts has action-kind `read` and resource
`unauthorized_access` — the requested pair appears only in the
metadata — and the response is a 403 naming the required
(resource, action). -/
theorem c10_denial_audit_shape (resource action : String) (u : User)
    (path method ip userAgent : String)
    (h : u.hasPermission resource action = false) :
    authorize resource action (some u) path method ip userAgent =
      { outcome := .insufficient resource action,
        audits := [{ action := "read", resource := "unauthorized_access",
                     resourceId := path, userId := u.id, userEmail := u.email,
                     metadata := [("requiredResource", resource),
                                  ("requiredAction", action),
                                  ("path", path), ("method", method)],
                     ipAddress := ip, userAgent := userAgent }] } := by
  simp [authorize, h]

/-- Witness for C10: the role-less `tokenHolder` is denied `read` on
`user` and the emitted record is the `unauthorized_access` read
record. -/
theorem c10_witness :
    authorize "user" "read" (some tokenHolder) "/api/users" "GET" "127.0.0.1" "jest" =
      { outcome := .insufficient "user" "read",
        audits := [{ action := "read", resource := "unauthorized_access",
                     resourceId := "/api/users", userId := tokenHolder.id,
                     userEmail := tokenHolder.email,
                     metadata := [("requiredResource", "user"),
                                  ("requiredAction", "read"),
                                  ("path", "/api/users"), ("method", "GET")],
                     ipAddress := "127.0.0.1", userAgent := "jest" }] } :=
  c10_denial_audit_shape "user" "read" tokenHolder "/api/users" "GET" "127.0.0.1" "jest" rfl

end RBAC
